import Mathlib

/-!
Shallow embedding of the LLM-File-Parsing backend (schema reconciliation
service) and proofs about its observable behaviour.

Python dictionaries are embedded as association lists with Python's
insert-or-overwrite semantics (overwriting keeps the original position,
new keys are appended), which preserves both lookup behaviour and the
iteration order the code relies on.  Cells of a pandas DataFrame are
`Option String`, with `none` standing for a missing value (NaN).
-/

namespace FileBackend

/-- Python dict insertion: `d[k] = v`.  If `k` is present its value is
replaced in place, otherwise the pair is appended. -/
def dictInsert (d : List (String × α)) (k : String) (v : α) :
    List (String × α) :=
  if d.any (fun kv => kv.1 == k) then
    d.map (fun kv => if kv.1 == k then (k, v) else kv)
  else d ++ [(k, v)]

/-- Python dict lookup `d.get(k)`: the (unique) value stored at `k`. -/
def dictGet? (d : List (String × α)) (k : String) : Option α :=
  (d.find? (fun kv => kv.1 == k)).map (fun kv => kv.2)

/-- The key list of an embedded dict, in iteration order. -/
def dictKeys (d : List (String × α)) : List String :=
  d.map (fun kv => kv.1)

/-- ASCII lower-casing of one character, as Python `str.lower` acts on the
ASCII range (all strings handled by the service are ASCII). -/
def lowerChar (c : Char) : Char :=
  if 'A' ≤ c ∧ c ≤ 'Z' then Char.ofNat (c.toNat + 32) else c

/-- Python `s.lower()` restricted to ASCII strings. -/
def pyLower (s : String) : String :=
  ⟨s.data.map lowerChar⟩

/-- The characters removed by Python `str.strip()` with no argument. -/
def isPySpace (c : Char) : Bool :=
  c == ' ' || c == '\t' || c == '\n' || c == '\r' ||
  c == '\x0b' || c == '\x0c'

/-- Python `s.strip()`: drop leading and trailing whitespace. -/
def pyStrip (s : String) : String :=
  ⟨(s.data.dropWhile isPySpace).reverse.dropWhile isPySpace |>.reverse⟩

/-- Helper for `pySplitOnce`: split a character list at the first
occurrence of `sep`, returning the parts before and after it. -/
def splitCharsOnce (sep : Char) : List Char → Option (List Char × List Char)
  | [] => none
  | c :: cs =>
    if c == sep then some ([], cs)
    else (splitCharsOnce sep cs).map (fun p => (c :: p.1, p.2))

/-- Python `s.split(sep, 1)` for a one-character separator, defined only
when the separator occurs (the code guards with `sep in s` first). -/
def pySplitOnce (s : String) (sep : Char) : Option (String × String) :=
  (splitCharsOnce sep s.data).map (fun p => (⟨p.1⟩, ⟨p.2⟩))

/-- Python `sep in s` for a one-character separator. -/
def pyContainsChar (s : String) (sep : Char) : Bool :=
  s.data.any (fun c => c == sep)

/-- SCHEMA_MAPPING from `app/services/file_parser.py`: the canonical
schema registry, each canonical field with its accepted aliases, in the
source's insertion order. -/
def SCHEMA_MAPPING : List (String × List String) :=
  [ ("Player Name", ["Player Name", "p_name", "player", "name", "full_name", "player_name", "player_full_name", "player_full"])
  , ("Matches", ["Matches", "mat", "match_count", "total_matches", "games", "total_games", "matches_played", "matches_count"])
  , ("Innings", ["Innings", "inns", "innings_count", "played_innings", "total_innings", "innings_played"])
  , ("Total Runs", ["Total Runs", "runs", "total_score", "r_total", "total_runs", "runs_scored", "total_runs_scored"])
  , ("Highest Score", ["Highest Score", "hs", "max_score", "top_score", "highest", "highest_score"])
  , ("Average", ["Average", "ave", "bat_avg", "average_runs", "avg", "batting_average"])
  , ("Wickets", ["Wickets", "wkt", "wickets_taken", "total_wickets", "wicket_count"])
  , ("Centuries", ["Centuries", "100s", "centuries", "century", "100"])
  , ("Half Centuries", ["Half Centuries", "50s", "half_centuries", "50", "half_century", "fifty"])
  , ("Fifers", ["Fifers", "five_wkts", "5_wickets", "5", "fifer", "five_wicket_haul"])
  , ("Best Bowling Figures", ["Best Bowling Figures", "bbf", "best_figures", "best_bowling", "best_bowling_figures", "best_bowling_figure"])
  ]

/-- The registry's canonical field names in canonical order
(`list(schema_mapping.keys())`). -/
def schemaKeys : List String :=
  SCHEMA_MAPPING.map (fun kv => kv.1)

/-- flat_map from `app/services/file_processing.py`: the dict
comprehension mapping each lower-cased alias to its canonical field,
built with Python dict overwrite semantics. -/
def flat_map : List (String × String) :=
  SCHEMA_MAPPING.foldl
    (fun acc kv => kv.2.foldl (fun acc a => dictInsert acc (pyLower a) kv.1) acc)
    []

/-! ## Key-Value Block Extractor (`app/services/file_parser.py`) -/

/-- State of the extractor loop: the emitted records, the open record
(`player_data`) and the seen-label set (`duplicate_keys`). -/
structure ExtState where
  players : List (List (String × String))
  record : List (String × String)
  seen : List String
deriving Repr, DecidableEq

/-- Initial extractor state. -/
def ExtState.init : ExtState := ⟨[], [], []⟩

/-- Body of the per-line loop shared by `extract_key_value_from_docx` and
`extract_key_value_from_pdf` (lines 58-67 and 114-122 of
`file_parser.py`): split on the first ':', strip both sides, close the
open record on a repeated non-empty label, then register the pair. -/
def extractStep (st : ExtState) (line : String) : ExtState :=
  if pyContainsChar line ':' then
    match pySplitOnce line ':' with
    | none => st
    | some (k0, v0) =>
      let key := pyStrip k0
      let value := pyStrip v0
      let st1 :=
        if key ≠ "" ∧ value ≠ "" ∧ key ∈ st.seen then
          { players := st.players ++ [st.record], record := [], seen := [] }
        else st
      if key ≠ "" ∧ value ≠ "" then
        { st1 with record := dictInsert st1.record key value,
                   seen := if key ∈ st1.seen then st1.seen else st1.seen ++ [key] }
      else st1
  else st

/-- extract_key_value_from_docx (`file_parser.py` lines 104-127) on the
document's paragraph texts: empty paragraphs are skipped, a single
seen-set persists across the whole document, and the still-open record
is emitted at end of input when non-empty. -/
def extract_key_value_from_docx (paragraphs : List String) :
    List (List (String × String)) :=
  let st := paragraphs.foldl
    (fun st para =>
      let text := pyStrip para
      if text = "" then st else extractStep st text)
    ExtState.init
  if st.record ≠ [] then st.players ++ [st.record] else st.players

/-- extract_key_value_from_pdf (`file_parser.py` lines 49-72) on the
per-page line lists: the open record and the emitted list persist across
pages, but `duplicate_keys` is re-initialised at the start of every page
(line 57 sits inside the page loop). -/
def extract_key_value_from_pdf (pages : List (List String)) :
    List (List (String × String)) :=
  let st := pages.foldl
    (fun st lines =>
      lines.foldl extractStep { st with seen := [] })
    ExtState.init
  if st.record ≠ [] then st.players ++ [st.record] else st.players

/-! ## Model of `difflib.get_close_matches` (CPython standard library)

`fuzzy_match_columns` delegates to `difflib.get_close_matches(word, keys,
n=1, cutoff=0.7)`.  The library is modelled after CPython's
implementation: `SequenceMatcher` with `a` the candidate and `b` the
word, no junk (the strings are far below the autojunk threshold of 200
characters), similarity `2*M/T` with `M` the total size of the matching
blocks and `T` the combined length, candidates kept when the similarity
reaches the cutoff, and the best candidate selected by the largest
(score, string) pair exactly as `heapq.nlargest` orders tuples.  Scores
are exact fractions where CPython uses floats. -/

/-- Best matching block so far inside `find_longest_match`. -/
structure LMBest where
  besti : Nat
  bestj : Nat
  bestsize : Nat
deriving Repr, DecidableEq

/-- Lookup in the `j2len` table of `find_longest_match`, defaulting to 0. -/
def natGetD (d : List (Nat × Nat)) (k : Nat) : Nat :=
  (((d.find? (fun kv => kv.1 == k)).map (fun kv => kv.2))).getD 0

/-- Store into the `newj2len` table. -/
def natPut (d : List (Nat × Nat)) (k v : Nat) : List (Nat × Nat) :=
  if d.any (fun kv => kv.1 == k) then
    d.map (fun kv => if kv.1 == k then (k, v) else kv)
  else d ++ [(k, v)]

/-- One row (fixed `i`) of the `find_longest_match` dynamic program:
scan the positions `j` of `b` equal to `a[i]` in ascending order,
extending runs recorded in the previous row's table. -/
def lmRow (a b : List Char) (i blo bhi : Nat) (old : List (Nat × Nat))
    (best : LMBest) : List (Nat × Nat) × LMBest :=
  (List.range' blo (bhi - blo)).foldl
    (fun st j =>
      match a.get? i, b.get? j with
      | some ca, some cb =>
        if ca == cb then
          let k := (if j = 0 then 0 else natGetD old (j - 1)) + 1
          let tbl := natPut st.1 j k
          if k > st.2.bestsize then (tbl, ⟨i + 1 - k, j + 1 - k, k⟩)
          else (tbl, st.2)
        else st
      | _, _ => st)
    ([], best)

/-- Leftward extension loop of `find_longest_match` (a no-op when the
block is already maximal, kept for fidelity). -/
def extendLeftAux (a b : List Char) (alo blo : Nat) :
    Nat → LMBest → LMBest
  | 0, best => best
  | fuel + 1, best =>
    if alo < best.besti ∧ blo < best.bestj then
      match a.get? (best.besti - 1), b.get? (best.bestj - 1) with
      | some ca, some cb =>
        if ca == cb then
          extendLeftAux a b alo blo fuel
            ⟨best.besti - 1, best.bestj - 1, best.bestsize + 1⟩
        else best
      | _, _ => best
    else best

/-- Rightward extension loop of `find_longest_match`. -/
def extendRightAux (a b : List Char) (ahi bhi : Nat) :
    Nat → LMBest → LMBest
  | 0, best => best
  | fuel + 1, best =>
    if best.besti + best.bestsize < ahi ∧ best.bestj + best.bestsize < bhi then
      match a.get? (best.besti + best.bestsize),
            b.get? (best.bestj + best.bestsize) with
      | some ca, some cb =>
        if ca == cb then
          extendRightAux a b ahi bhi fuel
            ⟨best.besti, best.bestj, best.bestsize + 1⟩
        else best
      | _, _ => best
    else best

/-- SequenceMatcher.find_longest_match on `a[alo:ahi]` and `b[blo:bhi]`
with an empty junk set: the earliest longest matching block. -/
def findLongestMatch (a b : List Char) (alo ahi blo bhi : Nat) : LMBest :=
  let p := (List.range' alo (ahi - alo)).foldl
    (fun st i => lmRow a b i blo bhi st.1 st.2)
    (([] : List (Nat × Nat)), (⟨alo, blo, 0⟩ : LMBest))
  extendRightAux a b ahi bhi (ahi + bhi)
    (extendLeftAux a b alo blo p.2.besti p.2)

/-- Total size of the matching blocks (SequenceMatcher's
get_matching_blocks recursion); the fuel strictly dominates the
interval measure, so it never runs out on the intended calls. -/
def matchesTotal (a b : List Char) : Nat → Nat → Nat → Nat → Nat → Nat
  | 0, _, _, _, _ => 0
  | fuel + 1, alo, ahi, blo, bhi =>
    let best := findLongestMatch a b alo ahi blo bhi
    if best.bestsize = 0 then 0
    else
      best.bestsize
        + matchesTotal a b fuel alo best.besti blo best.bestj
        + matchesTotal a b fuel (best.besti + best.bestsize) ahi
            (best.bestj + best.bestsize) bhi

/-- SequenceMatcher.ratio for `a` against `b` as an exact unreduced
fraction `2*M / T` (numerator, positive denominator); 1 when both
strings are empty. -/
def seqSimilarity (a b : List Char) : Nat × Nat :=
  let total := a.length + b.length
  if total = 0 then (1, 1)
  else (2 * matchesTotal a b (total + 1) 0 a.length 0 b.length, total)

/-- Comparison of two scores given as fractions with positive
denominators. -/
def fracLt (p q : Nat × Nat) : Prop :=
  p.1 * q.2 < q.1 * p.2

instance (p q : Nat × Nat) : Decidable (fracLt p q) := by
  unfold fracLt; infer_instance

/-- Equality of two scores given as fractions with positive
denominators. -/
def fracEq (p q : Nat × Nat) : Prop :=
  p.1 * q.2 = q.1 * p.2

instance (p q : Nat × Nat) : Decidable (fracEq p q) := by
  unfold fracEq; infer_instance

/-- Python string comparison (lexicographic on code points), used by
tuple comparison inside `heapq.nlargest`. -/
def strLtB : List Char → List Char → Bool
  | [], [] => false
  | [], _ :: _ => true
  | _ :: _, [] => false
  | c :: cs, d :: ds => if c == d then strLtB cs ds else decide (c < d)

/-- difflib.get_close_matches with `n = 1`: keep the possibilities whose
similarity against `word` reaches the cutoff (given as a fraction, 0.7 is
(7, 10)), then return the largest (score, string) pair, if any. -/
def getCloseMatchOne (word : String) (possibilities : List String)
    (cutoff : Nat × Nat) : Option String :=
  let scored := possibilities.filterMap (fun x =>
    let r := seqSimilarity x.data word.data
    if cutoff.1 * r.2 ≤ r.1 * cutoff.2 then some (r, x) else none)
  (scored.foldl
    (fun best p =>
      match best with
      | none => some p
      | some q =>
        if fracLt q.1 p.1 ∨ (fracEq q.1 p.1 ∧ strLtB q.2.data p.2.data = true)
        then some p
        else some q)
    none).map (fun p => p.2)

/-! ## Fuzzy matcher and Reconciliation Orchestrator
(`app/services/file_processing.py`) -/

/-- fuzzy_match_columns generalised over the alias table and the cutoff
(the source fixes them to `flat_map` and 0.7). -/
def fuzzyMatchWith (table : List (String × String)) (cutoff : Nat × Nat)
    (headers : List String) : List (String × String) × List String :=
  headers.foldl
    (fun st col =>
      match getCloseMatchOne (pyLower col) (dictKeys table) cutoff with
      | some m => (dictInsert st.1 col ((dictGet? table m).getD ""), st.2)
      | none => (st.1, st.2 ++ [col]))
    ([], [])

/-- fuzzy_match_columns (`file_processing.py` lines 74-93). -/
def fuzzy_match_columns (headers : List String) :
    List (String × String) × List String :=
  fuzzyMatchWith flat_map (7, 10) headers

/-- The Processing Summary dictionary built by process_tabular and
process_document. -/
structure ProcessingSummary where
  file_path : String
  total_records : Nat
  accepted_records : Nat
  rejected_records : Nat
  matched_columns : List (String × String)
  unmatched_columns : List String
  status : String
deriving Repr, DecidableEq

/-- Summary construction shared by process_tabular (lines 168-183) and
process_document (lines 287-301): accept all rows when the resolved
mapping has at least 6 entries, else none; status from the truthiness of
the accepted count. -/
def mkSummary (fp : String) (matched : List (String × String))
    (unmatched : List String) (total : Nat) : ProcessingSummary :=
  let accepted := if 6 ≤ matched.length then total else 0
  { file_path := fp
  , total_records := total
  , accepted_records := accepted
  , rejected_records := total - accepted
  , matched_columns := matched
  , unmatched_columns := unmatched
  , status := if accepted ≠ 0 then "Accepted" else "Rejected" }

/-- Python subscripting of a `str` value with a `str` key, as performed
by `response.text["matched_columns"]` (`file_processing.py` lines
163-164 and 282-283): `response.text` is a string and string subscripts
must be integers or slices, so this raises TypeError for every response
text; it can never produce a value, hence the `Empty` payload. -/
def strGetItemStr (_s _key : String) : Except String Empty :=
  .error "TypeError: string indices must be integers"

/-- The try/except around the generative call: `.ok text` is a response
whose `.text` attribute holds the raw body, `.error` a transport or
service failure; the bare `except:` routes every raised exception to
`fuzzy_match_columns` on the file's headers. -/
def resolveMapping (resp : Except Unit String) (headers : List String) :
    List (String × String) × List String :=
  match resp with
  | .error _ => fuzzy_match_columns headers
  | .ok text =>
    match strGetItemStr text "matched_columns" with
    | .error _ => fuzzy_match_columns headers
    | .ok e => e.elim

/-- Summary part of process_tabular (`file_processing.py` lines
116-183): resolve the mapping for the file's headers from the
generative response (falling back to fuzzy matching on any failure) and
build the Processing Summary over the row count. -/
def process_tabular (fp : String) (headers : List String) (nRows : Nat)
    (resp : Except Unit String) : ProcessingSummary :=
  let r := resolveMapping resp headers
  mkSummary fp r.1 r.2 nRows

/-- Python return-tuple of process_document: the empty-DataFrame branch
(lines 227-236) returns two values, every other branch three. -/
inductive DocReturn where
  | two (summary : ProcessingSummary)
      (data : List (List (String × String)))
  | three (summary : ProcessingSummary)
      (data : List (List (String × String)))
      (matched : List (String × String))
deriving Repr, DecidableEq

/-- Column list of `pd.DataFrame(players)`: the union of the record
keys in first-appearance order. -/
def dfColumnsOfRecords (records : List (List (String × String))) :
    List String :=
  records.foldl
    (fun acc r => r.foldl
      (fun acc kv => if acc.contains kv.1 then acc else acc ++ [kv.1]) acc)
    []

/-- process_document (`file_processing.py` lines 198-301) on the pages
of a PDF source: extract the records, return the rejected two-element
tuple when the DataFrame is empty, otherwise resolve the mapping and
build the summary. -/
def process_document (pages : List (List String)) (fp : String)
    (resp : Except Unit String) : DocReturn :=
  let df := extract_key_value_from_pdf pages
  if df = [] then
    .two
      { file_path := fp
      , total_records := 0
      , accepted_records := 0
      , rejected_records := 0
      , matched_columns := []
      , unmatched_columns := []
      , status := "Rejected" } []
  else
    let headers := dfColumnsOfRecords df
    let r := resolveMapping resp headers
    .three (mkSummary fp r.1 r.2 df.length) df r.1

/-- Python's three-way unpacking `result, matched_data, matched = ...`
applied to a process_document return value (`file_analyzer.py` lines
46 and 53): a two-element tuple raises ValueError. -/
def unpack3 (r : DocReturn) :
    Except String (ProcessingSummary × List (List (String × String)) ×
      List (String × String)) :=
  match r with
  | .two _ _ =>
    .error "ValueError: not enough values to unpack (expected 3, got 2)"
  | .three s d m => .ok (s, d, m)

/-- Document branch of analyze_file (`file_analyzer.py` lines 50-63):
unpack the process_document result, wrapping any exception first as the
per-branch RuntimeError and then as the outer RuntimeError. -/
def analyze_file_document (pages : List (List String)) (fp : String)
    (resp : Except Unit String) :
    Except String (ProcessingSummary × List (List (String × String)) ×
      List (String × String)) :=
  match unpack3 (process_document pages fp resp) with
  | .ok v => .ok v
  | .error e =>
    .error ("RuntimeError: File analysis failed: Failed to process PDF document: " ++ e)

/-! ## Correction Merger (`app/services/save_data.py`) -/

/-- The FileProcessingLog row mutated by save_submit_columns_data. -/
structure FileLog where
  matched_columns : List String
  unmatched_columns : List String
  total_records : Nat
  status : String
deriving Repr, DecidableEq

/-- Filter loop of save_submit_columns_data (lines 175-184): keep the
user-mapping entries whose key occurs in the file's header list.  For
string-typed headers the integer branch can never fire, because
`convert_string_to_int(key) in header` compares an int against strings
and Python's `==` across those types is False, so the surviving test is
`key in header`. -/
def buildNewMapped (userMapping : List (String × String))
    (header : List String) : List (String × String) :=
  userMapping.foldl
    (fun acc kv => if kv.1 ∈ header then dictInsert acc kv.1 kv.2 else acc)
    []

/-- Merge branch of save_submit_columns_data (lines 264-272), run when a
prior FileProcessingLog exists: store the filtered user-mapping keys as
the matched columns, append every header not among them to the prior
unmatched list and deduplicate (`list(set(...))`; Python's set order is
unspecified, the embedding keeps first occurrences — the claims about
this step are set-statements), and recompute the status from the
truthiness of the new key count. -/
def mergeLog (prior : FileLog) (header : List String)
    (new_mapped : List (String × String)) (total : Nat) : FileLog :=
  let matched := dictKeys new_mapped
  let temp := header.foldl
    (fun acc col => if col ∈ matched then acc else acc ++ [col])
    prior.unmatched_columns
  { matched_columns := matched
  , unmatched_columns := temp.dedup
  , total_records := total
  , status := if matched.length ≠ 0 then "accepted" else "partial" }

/-! ## Normalizer (`app/api/v1/endpoints/upload_file.py` lines 65-79 and
`app/services/save_data.py` lines 187-199) -/

/-- A DataFrame cell: `none` is a missing value (NaN). -/
abbrev Cell := Option String

/-- A DataFrame as its columns in order, each with its cells. -/
abbrev DFrame := List (String × List Cell)

/-- Value a record receives from a cell after `fillna("")` and
`to_dict(orient="records")`: missing or absent cells become the empty
string. -/
def cellVal (cells : List Cell) (i : Nat) : String :=
  match cells.get? i with
  | some (some v) => v
  | _ => ""

/-- The mapping keys that occur among the file's columns, in mapping
order (`mapped_temp_col`). -/
def selectKeys (df : DFrame) (m : List (String × String)) : List String :=
  (dictKeys m).filter (fun k => (dictKeys df).contains k)

/-- Column projection `df[mapped_temp_col]`. -/
def selectCols (df : DFrame) (m : List (String × String)) : DFrame :=
  (selectKeys df m).filterMap
    (fun k => (df.find? (fun col => col.1 == k)).map (fun col => (k, col.2)))

/-- Column renaming `rename(columns=mapping)`. -/
def renameCols (m : List (String × String)) (d : DFrame) : DFrame :=
  d.map (fun col => ((dictGet? m col.1).getD col.1, col.2))

/-- The loop `for col in schema_mapping: if col not in columns:
matched_data[col] = "-"`: synthesize a placeholder column for every
canonical field still missing. -/
def fillMissing (nRows : Nat) (d : DFrame) : DFrame :=
  schemaKeys.foldl
    (fun acc k =>
      if (dictKeys acc).contains k then acc
      else acc ++ [(k, List.replicate nRows (some "-"))])
    d

/-- Column reordering `matched_data[list(schema_mapping.keys())]`. -/
def reorderCols (d : DFrame) : DFrame :=
  schemaKeys.filterMap
    (fun k => (d.find? (fun col => col.1 == k)).map (fun col => (k, col.2)))

/-- `fillna("")` followed by `to_dict(orient="records")`: one record per
row, missing cells as the empty string. -/
def recordsOf (d : DFrame) (nRows : Nat) : List (List (String × String)) :=
  (List.range nRows).map
    (fun i => d.map (fun col => (col.1, cellVal col.2 i)))

/-- The normalization pipeline: select the mapped columns present in the
file (in mapping order), rename them to their canonical fields,
synthesize a `"-"` column for every canonical field still missing,
reorder to the registry's canonical order, fill missing cells with the
empty string and emit one record per row. -/
def normalize (df : DFrame) (nRows : Nat) (m : List (String × String)) :
    List (List (String × String)) :=
  recordsOf (reorderCols (fillMissing nRows (renameCols m (selectCols df m)))) nRows

/-! ## Safe numeric conversions (`app/services/save_data.py`) -/

/-- A value held in a canonical record cell on the correction path:
Python `None` or a string. -/
inductive PyVal where
  | none
  | str (s : String)
deriving Repr, DecidableEq

/-- Trailing part of a Python integer-literal digit run: digits with
single underscores strictly between digits. -/
def intDigitsRest : List Char → Bool
  | [] => true
  | c :: cs =>
    if c == '_' then
      match cs with
      | d :: ds => d.isDigit && intDigitsRest ds
      | [] => false
    else c.isDigit && intDigitsRest cs

/-- A non-empty digit run as accepted inside Python `int(str)`. -/
def intDigits : List Char → Bool
  | [] => false
  | c :: cs => c.isDigit && intDigitsRest cs

/-- Python `int(s)` for an ASCII string: strip whitespace, optional
sign, then a non-empty underscore-separated digit run; `none` models the
ValueError raised otherwise. -/
def pyIntParse (s : String) : Option Int :=
  let t := (s.data.dropWhile isPySpace).reverse.dropWhile isPySpace |>.reverse
  let core := match t with
    | '+' :: r => some ((1 : Int), r)
    | '-' :: r => some ((-1 : Int), r)
    | r => some ((1 : Int), r)
  core.bind (fun sr =>
    if intDigits sr.2 then
      let n := (sr.2.filter (fun c => c != '_')).foldl
        (fun (acc : Nat) c => acc * 10 + (c.toNat - 48)) 0
      some (sr.1 * (n : Int))
    else Option.none)

/-- safe_int (`save_data.py` lines 287-304): Python `int(value)` with 0
on ValueError (unparseable string) or TypeError (`None`). -/
def safe_int (v : PyVal) : Int :=
  match v with
  | .none => 0
  | .str s => (pyIntParse s).getD 0

/-- Result of Python `float(str)`, with finite values read exactly as
rationals (rounding to binary floats is irrelevant to the claims, which
only touch the failure path). -/
inductive PyFloat where
  | finite (q : Rat)
  | infinite (neg : Bool)
  | nan
deriving Repr, DecidableEq

/-- Parse a digit run with underscores, returning its value, its digit
count and the rest; `none` on an empty run or a misplaced underscore. -/
def parseDigitsRest : List Char → Nat → Nat → Option (Nat × Nat × List Char)
  | [], v, n => some (v, n, [])
  | c :: cs, v, n =>
    if c == '_' then
      match cs with
      | d :: ds =>
        if d.isDigit then parseDigitsRest ds (v * 10 + (d.toNat - 48)) (n + 1)
        else Option.none
      | [] => Option.none
    else if c.isDigit then parseDigitsRest cs (v * 10 + (c.toNat - 48)) (n + 1)
    else some (v, n, c :: cs)

/-- A non-empty digit part of a Python float literal. -/
def parseDigitPart (cs : List Char) : Option (Nat × Nat × List Char) :=
  match cs with
  | c :: rest =>
    if c.isDigit then parseDigitsRest rest (c.toNat - 48) 1 else Option.none
  | [] => Option.none

/-- Mantissa of a Python float literal: integer part and/or fractional
part with at least one digit overall; returns the combined digits value,
the fractional digit count and the rest. -/
def parseMantissa (cs : List Char) : Option (Nat × Nat × List Char) :=
  match parseDigitPart cs with
  | some (iv, _, rest) =>
    match rest with
    | '.' :: r2 =>
      match parseDigitPart r2 with
      | some (fv, fn, r3) => some (iv * 10 ^ fn + fv, fn, r3)
      | Option.none => some (iv, 0, r2)
    | r => some (iv, 0, r)
  | Option.none =>
    match cs with
    | '.' :: r2 => parseDigitPart r2
    | _ => Option.none

/-- Assemble a finite float value from sign, combined digits, fractional
scale and exponent, as an exact rational. -/
def mkFinite (neg : Bool) (num scale : Nat) (e : Int) : PyFloat :=
  let base : Rat := (num : Rat) / ((10 : Rat) ^ scale)
  let q := if 0 ≤ e then base * ((10 : Rat) ^ e.toNat)
           else base / ((10 : Rat) ^ (-e).toNat)
  .finite (if neg then -q else q)

/-- Python `float(s)` for an ASCII string: strip whitespace, optional
sign, then `inf`/`infinity`/`nan` (case-insensitive) or a decimal
mantissa with optional exponent; `none` models the ValueError raised
otherwise. -/
def pyFloatParse (s : String) : Option PyFloat :=
  let t := (s.data.dropWhile isPySpace).reverse.dropWhile isPySpace |>.reverse
  let sgn := match t with
    | '+' :: r => (false, r)
    | '-' :: r => (true, r)
    | r => (false, r)
  let neg := sgn.1
  let u := sgn.2
  let low := u.map lowerChar
  if low = "inf".data ∨ low = "infinity".data then some (.infinite neg)
  else if low = "nan".data then some PyFloat.nan
  else
    (parseMantissa u).bind (fun msr =>
      match msr.2.2 with
      | [] => some (mkFinite neg msr.1 msr.2.1 0)
      | e :: es =>
        if e == 'e' || e == 'E' then
          let esgn := match es with
            | '+' :: r => ((1 : Int), r)
            | '-' :: r => ((-1 : Int), r)
            | r => ((1 : Int), r)
          match parseDigitPart esgn.2 with
          | some (ev, _, []) => some (mkFinite neg msr.1 msr.2.1 (esgn.1 * ev))
          | _ => Option.none
        else Option.none)

/-- safe_float (`save_data.py` lines 306-323): Python `float(value)`
with 0.0 on ValueError or TypeError. -/
def safe_float (v : PyVal) : PyFloat :=
  match v with
  | .none => .finite 0
  | .str s => (pyFloatParse s).getD (.finite 0)

/-! ## Entity construction on the correction path
(`app/services/save_data.py` lines 222-251) -/

/-- Python `row.get(k)` (default `None`). -/
def rowGet (row : List (String × PyVal)) (k : String) : PyVal :=
  (dictGet? row k).getD .none

/-- Python `row.get(k, default)`. -/
def rowGetD (row : List (String × PyVal)) (k : String) (d : PyVal) : PyVal :=
  (dictGet? row k).getD d

/-- Python `str(v or d)`: the default replaces falsy values
(`None` and the empty string). -/
def pyOrStr (v : PyVal) (d : String) : String :=
  match v with
  | .none => d
  | .str s => if s = "" then d else s

/-- The Player row inserted per record. -/
structure Player where
  file_id : Nat
  player_name : PyVal
  matchCount : Int
  innings : Int
deriving Repr, DecidableEq

/-- The Batting row inserted per record. -/
structure Batting where
  total_runs : Int
  average : PyFloat
  highest_score : String
  century : Int
  half_century : Int
deriving Repr, DecidableEq

/-- The Bowling row inserted per record. -/
structure Bowling where
  wickets : Int
  five_wickets : Int
  best_bowling : String
deriving Repr, DecidableEq

/-- Per-row entity construction of save_submit_columns_data (lines
222-251): every numeric field goes through safe_int / safe_float. -/
def buildEntities (fid : Nat) (row : List (String × PyVal)) :
    Player × Batting × Bowling :=
  ( { file_id := fid
    , player_name := rowGetD row "Player Name" (.str "Unknown")
    , matchCount := safe_int (rowGet row "Matches")
    , innings := safe_int (rowGet row "Innings") }
  , { total_runs := safe_int (rowGet row "Total Runs")
    , average := safe_float (rowGet row "Average")
    , highest_score := pyOrStr (rowGet row "Highest Score") "0"
    , century := safe_int (rowGet row "Centuries")
    , half_century := safe_int (rowGet row "Half Centuries") }
  , { wickets := safe_int (rowGet row "Wickets")
    , five_wickets := safe_int (rowGet row "Fifers")
    , best_bowling := pyOrStr (rowGet row "Best Bowling Figures") "0/0" } )

/-! ## Lemmas about the embedded dictionaries and DataFrames -/

theorem mem_dictKeys {d : List (String × α)} {k : String} :
    k ∈ dictKeys d ↔ ∃ v, (k, v) ∈ d := by
  simp only [dictKeys, List.mem_map]
  constructor
  · rintro ⟨⟨k1, v⟩, hmem, rfl⟩
    exact ⟨v, hmem⟩
  · rintro ⟨v, hv⟩
    exact ⟨(k, v), hv, rfl⟩

theorem find?_isSome_iff_mem_keys {d : List (String × α)} {k : String} :
    (d.find? (fun kv => kv.1 == k)).isSome ↔ k ∈ dictKeys d := by
  induction d with
  | nil => simp [dictKeys]
  | cons a t ih =>
    by_cases h : a.1 = k
    · rw [List.find?_cons_of_pos _ (by simp [h])]
      simp [dictKeys, h]
    · rw [List.find?_cons_of_neg _ (by simp [h])]
      rw [ih]
      simp only [dictKeys, List.map_cons, List.mem_cons]
      exact ⟨Or.inr, fun hc => hc.elim (fun he => absurd he.symm h) id⟩

theorem find?_eq_some_of_nodupKeys {d : List (String × α)} {k : String}
    {v : α} (hnd : (dictKeys d).Nodup) (hmem : (k, v) ∈ d) :
    d.find? (fun kv => kv.1 == k) = some (k, v) := by
  induction d with
  | nil => cases hmem
  | cons a t ih =>
    simp only [dictKeys, List.map_cons, List.nodup_cons] at hnd
    rcases List.mem_cons.mp hmem with h | h
    · subst h
      exact List.find?_cons_of_pos _ (by simp)
    · have hk : k ∈ dictKeys t := mem_dictKeys.mpr ⟨v, h⟩
      have hne : ¬(a.1 = k) := fun he => hnd.1 (he ▸ (by simpa [dictKeys] using hk))
      rw [List.find?_cons_of_neg _ (by simp [hne])]
      exact ih hnd.2 h

theorem dictGet?_eq_some_of_nodupKeys {d : List (String × α)} {k : String}
    {v : α} (hnd : (dictKeys d).Nodup) (hmem : (k, v) ∈ d) :
    dictGet? d k = some v := by
  simp [dictGet?, find?_eq_some_of_nodupKeys hnd hmem]

theorem mem_of_dictGet?_eq_some {d : List (String × α)} {k : String}
    {v : α} (h : dictGet? d k = some v) : (k, v) ∈ d := by
  obtain ⟨kv, hfind, hv⟩ :
      ∃ kv, d.find? (fun kv => kv.1 == k) = some kv ∧ kv.2 = v := by
    cases hf : d.find? (fun kv => kv.1 == k) with
    | none => simp [dictGet?, hf] at h
    | some kv => exact ⟨kv, rfl, by simpa [dictGet?, hf] using h⟩
  have hmem := List.mem_of_find?_eq_some hfind
  have hp := List.find?_some hfind
  simp only [beq_iff_eq] at hp
  have : kv = (k, v) := by
    cases kv
    simp only at hp hv
    simp [hp, hv]
  exact this ▸ hmem

theorem eq_of_mem_of_nodup_values {d : List (String × α)} {k₁ k₂ : String}
    {v : α} (hnd : (d.map (fun kv => kv.2)).Nodup)
    (h1 : (k₁, v) ∈ d) (h2 : (k₂, v) ∈ d) : k₁ = k₂ := by
  induction d with
  | nil => cases h1
  | cons a t ih =>
    simp only [List.map_cons, List.nodup_cons] at hnd
    rcases List.mem_cons.mp h1 with e1 | e1 <;> rcases List.mem_cons.mp h2 with e2 | e2
    · exact congrArg Prod.fst (e1.trans e2.symm)
    · exact absurd (List.mem_map.mpr ⟨(k₂, v), e2, by rw [← e1]⟩) hnd.1
    · exact absurd (List.mem_map.mpr ⟨(k₁, v), e1, by rw [← e2]⟩) hnd.1
    · exact ih hnd.2 e1 e2

theorem eq_of_mem_of_nodup_keys {d : List (String × α)} {k : String}
    {v₁ v₂ : α} (hnd : (dictKeys d).Nodup)
    (h1 : (k, v₁) ∈ d) (h2 : (k, v₂) ∈ d) : v₁ = v₂ := by
  have e1 := find?_eq_some_of_nodupKeys hnd h1
  have e2 := find?_eq_some_of_nodupKeys hnd h2
  rw [e1] at e2
  exact congrArg Prod.snd (Option.some.inj e2)

theorem mem_foldl_appendIfUnmatched (header : List String)
    (acc matched : List String) (c : String) :
    c ∈ header.foldl
        (fun acc col => if col ∈ matched then acc else acc ++ [col]) acc ↔
      c ∈ acc ∨ (c ∈ header ∧ c ∉ matched) := by
  induction header generalizing acc with
  | nil => simp
  | cons h t ih =>
    simp only [List.foldl_cons]
    by_cases hm : h ∈ matched
    · rw [if_pos hm, ih]
      constructor
      · rintro (hc | hc)
        · exact Or.inl hc
        · exact Or.inr ⟨List.mem_cons_of_mem _ hc.1, hc.2⟩
      · rintro (hc | hc)
        · exact Or.inl hc
        · rcases List.mem_cons.mp hc.1 with rfl | ht
          · exact absurd hm hc.2
          · exact Or.inr ⟨ht, hc.2⟩
    · rw [if_neg hm, ih]
      constructor
      · rintro (hc | hc)
        · rcases List.mem_append.mp hc with hc | hc
          · exact Or.inl hc
          · simp only [List.mem_singleton] at hc
            exact Or.inr ⟨hc ▸ List.mem_cons_self _ _, hc ▸ hm⟩
        · exact Or.inr ⟨List.mem_cons_of_mem _ hc.1, hc.2⟩
      · rintro (hc | hc)
        · exact Or.inl (List.mem_append.mpr (Or.inl hc))
        · rcases List.mem_cons.mp hc.1 with rfl | ht
          · exact Or.inl (List.mem_append.mpr (Or.inr (by simp)))
          · exact Or.inr ⟨ht, hc.2⟩

theorem find?_fillMissing_aux (ks : List String) (n : Nat) (d : DFrame)
    (k : String) :
    ((ks.foldl
        (fun acc k' =>
          if (dictKeys acc).contains k' then acc
          else acc ++ [(k', List.replicate n (some "-"))]) d).find?
          (fun col => col.1 == k)) =
      ((d.find? (fun col => col.1 == k)).or
        (if k ∈ ks then some (k, List.replicate n (some "-")) else none)) := by
  induction ks generalizing d with
  | nil => simp [Option.or_none]
  | cons k0 t ih =>
    simp only [List.foldl_cons]
    by_cases hc : (dictKeys d).contains k0
    · rw [if_pos hc, ih]
      by_cases hk : k = k0
      · subst hk
        have hs : (d.find? (fun col => col.1 == k)).isSome :=
          find?_isSome_iff_mem_keys.mpr (by simpa using hc)
        obtain ⟨c, hcs⟩ := Option.isSome_iff_exists.mp hs
        simp [hcs, List.mem_cons]
      · simp [List.mem_cons, hk]
    · rw [if_neg hc, ih]
      rw [List.find?_append]
      by_cases hk : k = k0
      · subst hk
        have hn : d.find? (fun col => col.1 == k) = none := by
          cases hf : d.find? (fun col => col.1 == k) with
          | none => rfl
          | some c =>
            have hmem : k ∈ dictKeys d :=
              find?_isSome_iff_mem_keys.mp (by simp [hf])
            exact absurd (List.elem_eq_true_of_mem hmem) hc
        simp [hn, List.find?, List.mem_cons]
      · have hb : (k0 == k) = false := beq_eq_false_iff_ne.mpr (Ne.symm hk)
        have h1 : (List.find? (fun col => col.1 == k)
            [(k0, List.replicate n (some "-"))]) = none := by
          simp [List.find?, hb]
        rw [h1]
        simp [Option.or_none, List.mem_cons, hk]

theorem filterMap_find?_names (ks : List String) (d : DFrame)
    (h : ∀ k ∈ ks, k ∈ dictKeys d) :
    (ks.filterMap
      (fun k => (d.find? (fun col => col.1 == k)).map
        (fun col => (k, col.2)))).map (fun kv => kv.1) = ks := by
  induction ks with
  | nil => rfl
  | cons k t ih =>
    have hs : (d.find? (fun col => col.1 == k)).isSome :=
      find?_isSome_iff_mem_keys.mpr (h k (List.mem_cons_self _ _))
    obtain ⟨c, hcs⟩ := Option.isSome_iff_exists.mp hs
    simp only [List.filterMap_cons, hcs, Option.map_some']
    simp only [List.map_cons]
    rw [ih (fun k' hk' => h k' (List.mem_cons_of_mem _ hk'))]

theorem mem_filterMap_find? {ks : List String} {d : DFrame} {k : String}
    {c : String × List Cell} (hk : k ∈ ks)
    (hf : d.find? (fun col => col.1 == k) = some c) :
    (k, c.2) ∈ ks.filterMap
      (fun k => (d.find? (fun col => col.1 == k)).map
        (fun col => (k, col.2))) :=
  List.mem_filterMap.mpr ⟨k, hk, by rw [hf]; rfl⟩

theorem recordsOf_get? {d : DFrame} {n i : Nat} (hi : i < n) :
    (recordsOf d n).get? i =
      some (d.map (fun col => (col.1, cellVal col.2 i))) := by
  simp [recordsOf, List.get?_eq_getElem?, List.getElem?_map,
    List.getElem?_range hi]

theorem mem_recordsOf {d : DFrame} {n : Nat} {r : List (String × String)} :
    r ∈ recordsOf d n ↔
      ∃ i, i < n ∧ r = d.map (fun col => (col.1, cellVal col.2 i)) := by
  simp only [recordsOf, List.mem_map, List.mem_range]
  constructor
  · rintro ⟨i, hi, rfl⟩
    exact ⟨i, hi, rfl⟩
  · rintro ⟨i, hi, rfl⟩
    exact ⟨i, hi, rfl⟩

theorem cellVal_replicate {n i : Nat} (hi : i < n) :
    cellVal (List.replicate n (some "-")) i = "-" := by
  simp [cellVal, List.get?_eq_getElem?, List.getElem?_replicate, hi]

theorem schemaKeys_nodup : schemaKeys.Nodup := by decide

theorem safe_int_eq_zero {v : PyVal}
    (h : ∀ s, v = PyVal.str s → pyIntParse s = Option.none) :
    safe_int v = 0 := by
  cases v with
  | none => rfl
  | str s => simp [safe_int, h s rfl]

theorem safe_float_eq_zero {v : PyVal}
    (h : ∀ s, v = PyVal.str s → pyFloatParse s = Option.none) :
    safe_float v = PyFloat.finite 0 := by
  cases v with
  | none => rfl
  | str s => simp [safe_float, h s rfl]

theorem find?_eq_none_of_not_mem_keys {d : List (String × α)} {k : String}
    (h : k ∉ dictKeys d) : d.find? (fun kv => kv.1 == k) = none := by
  cases hf : d.find? (fun kv => kv.1 == k) with
  | none => rfl
  | some c =>
    exact absurd (find?_isSome_iff_mem_keys.mp (by simp [hf])) h

theorem selectKeys_sub_df {df : DFrame} {m : List (String × String)} :
    ∀ k ∈ selectKeys df m, k ∈ dictKeys df := by
  intro k hk
  simp only [selectKeys, List.mem_filter] at hk
  exact List.mem_of_elem_eq_true hk.2

theorem selectKeys_sub_m {df : DFrame} {m : List (String × String)} :
    ∀ k ∈ selectKeys df m, k ∈ dictKeys m := by
  intro k hk
  exact (List.mem_filter.mp hk).1

theorem mem_selectKeys {df : DFrame} {m : List (String × String)}
    {k : String} (h1 : k ∈ dictKeys m) (h2 : k ∈ dictKeys df) :
    k ∈ selectKeys df m :=
  List.mem_filter.mpr ⟨h1, List.elem_eq_true_of_mem h2⟩

theorem renameCols_names {m : List (String × String)} {d : DFrame} :
    (renameCols m d).map (fun kv => kv.1) =
      (d.map (fun kv => kv.1)).map (fun k => (dictGet? m k).getD k) := by
  simp [renameCols, List.map_map, Function.comp]

theorem selectCols_names {df : DFrame} {m : List (String × String)} :
    (selectCols df m).map (fun kv => kv.1) = selectKeys df m :=
  filterMap_find?_names (selectKeys df m) df
    (fun k hk => selectKeys_sub_df k hk)

theorem ren_names_nodup {df : DFrame} {m : List (String × String)}
    (hmk : (dictKeys m).Nodup) (hmv : (m.map (fun kv => kv.2)).Nodup) :
    ((renameCols m (selectCols df m)).map (fun kv => kv.1)).Nodup := by
  rw [renameCols_names, selectCols_names]
  apply List.Nodup.map_on
  · intro x hx y hy hxy
    obtain ⟨vx, hvx⟩ := mem_dictKeys.mp (selectKeys_sub_m x hx)
    obtain ⟨vy, hvy⟩ := mem_dictKeys.mp (selectKeys_sub_m y hy)
    rw [dictGet?_eq_some_of_nodupKeys hmk hvx] at hxy
    rw [dictGet?_eq_some_of_nodupKeys hmk hvy] at hxy
    simp only [Option.getD_some] at hxy
    exact eq_of_mem_of_nodup_values hmv (hxy ▸ hvx) hvy
  · exact List.Nodup.filter _ hmk

theorem mem_ren {df : DFrame} {m : List (String × String)} {h f : String}
    {cells : List Cell} (hdf : (dictKeys df).Nodup)
    (hmk : (dictKeys m).Nodup) (hm : (h, f) ∈ m) (hd : (h, cells) ∈ df) :
    (f, cells) ∈ renameCols m (selectCols df m) := by
  have hks : h ∈ selectKeys df m :=
    mem_selectKeys (mem_dictKeys.mpr ⟨f, hm⟩) (mem_dictKeys.mpr ⟨cells, hd⟩)
  have hfind : df.find? (fun col => col.1 == h) = some (h, cells) :=
    find?_eq_some_of_nodupKeys hdf hd
  have hsel : (h, cells) ∈ selectCols df m :=
    mem_filterMap_find? hks hfind
  exact List.mem_map.mpr ⟨(h, cells), hsel,
    by simp [dictGet?_eq_some_of_nodupKeys hmk hm]⟩

theorem ren_no_foreign_name {df : DFrame} {m : List (String × String)}
    {f : String} (hmk : (dictKeys m).Nodup)
    (hf : f ∉ m.map (fun kv => kv.2)) :
    f ∉ dictKeys (renameCols m (selectCols df m)) := by
  intro hmem
  rw [show dictKeys (renameCols m (selectCols df m)) =
        (renameCols m (selectCols df m)).map (fun kv => kv.1) from rfl,
    renameCols_names, selectCols_names] at hmem
  obtain ⟨k, hk, hkf⟩ := List.mem_map.mp hmem
  obtain ⟨v, hv⟩ := mem_dictKeys.mp (selectKeys_sub_m k hk)
  rw [dictGet?_eq_some_of_nodupKeys hmk hv, Option.getD_some] at hkf
  exact hf (hkf ▸ List.mem_map.mpr ⟨(k, v), hv, rfl⟩)

theorem find?_filled (nRows : Nat) (ren : DFrame) (k : String) :
    (fillMissing nRows ren).find? (fun col => col.1 == k) =
      ((ren.find? (fun col => col.1 == k)).or
        (if k ∈ schemaKeys then some (k, List.replicate nRows (some "-"))
         else none)) :=
  find?_fillMissing_aux schemaKeys nRows ren k

/-! ## Claim theorems -/

/-- C1 (amended): for every processing pass, the Processing Summary's
accepted count equals the row count when the resolved mapping has at
least 6 entries (mapped headers — not necessarily 6 distinct canonical
fields) and 0 otherwise; rejected = total − accepted; and the status is
"Accepted" exactly when the accepted count is positive. -/
theorem c1_acceptance_counts_entries (fp : String) (headers : List String)
    (total : Nat) (resp : Except Unit String) :
    (process_tabular fp headers total resp).matched_columns
      = (resolveMapping resp headers).1
    ∧ (process_tabular fp headers total resp).accepted_records =
        (if 6 ≤ (resolveMapping resp headers).1.length then total else 0)
    ∧ (process_tabular fp headers total resp).rejected_records =
        total - (process_tabular fp headers total resp).accepted_records
    ∧ ((process_tabular fp headers total resp).status = "Accepted"
        ↔ 0 < (process_tabular fp headers total resp).accepted_records) := by
  refine ⟨rfl, rfl, rfl, ?_⟩
  show (if (if 6 ≤ (resolveMapping resp headers).1.length then total else 0) ≠ 0
      then "Accepted" else "Rejected") = "Accepted"
    ↔ 0 < (if 6 ≤ (resolveMapping resp headers).1.length then total else 0)
  by_cases h0 : (if 6 ≤ (resolveMapping resp headers).1.length then total else 0) = 0
  · rw [h0]
    simp
  · rw [if_pos h0]
    simp [Nat.pos_of_ne_zero h0]

set_option maxRecDepth 1000000 in
set_option maxHeartbeats 4000000 in
/-- C1 (counterexample): on a 10-row file with headers p_name, player,
mat, games, inns and runs whose generative tier fails, the fuzzy tier
resolves all six headers, but onto only four distinct canonical fields;
the claim then demands accepted_records = 0, yet the pass accepts all
ten rows, because the code counts mapping entries rather than distinct
canonical fields. -/
theorem c1_counterexample :
    process_tabular "stats.csv"
        ["p_name", "player", "mat", "games", "inns", "runs"] 10
        (Except.error ()) =
      { file_path := "stats.csv"
      , total_records := 10
      , accepted_records := 10
      , rejected_records := 0
      , matched_columns := [("p_name", "Player Name"),
          ("player", "Player Name"), ("mat", "Matches"),
          ("games", "Matches"), ("inns", "Innings"), ("runs", "Total Runs")]
      , unmatched_columns := []
      , status := "Accepted" }
    ∧ (([("p_name", "Player Name"), ("player", "Player Name"),
          ("mat", "Matches"), ("games", "Matches"), ("inns", "Innings"),
          ("runs", "Total Runs")].map (fun kv => kv.2)).dedup.length = 4) :=
  ⟨by decide, by decide⟩

/-- C2 (code evaluation): splitting the same "Name" lines across two PDF
pages loses the first record, because the PDF extractor re-initialises
its seen-set at every page start while keeping the open record; the DOCX
extractor on the concatenated lines behaves as the claim describes, as
does the claim's four-line example. -/
theorem c2_pdf_page_boundary_loses_record :
    extract_key_value_from_pdf [["Name: A"], ["Name: B"]] = [[("Name", "B")]]
    ∧ extract_key_value_from_docx ["Name: A", "Name: B"]
        = [[("Name", "A")], [("Name", "B")]]
    ∧ extract_key_value_from_docx ["Name: A", "Runs: 1", "Name: B", "Runs: 2"]
        = [[("Name", "A"), ("Runs", "1")], [("Name", "B"), ("Runs", "2")]] :=
  ⟨rfl, rfl, rfl⟩

/-- C3 (code evaluation): subscripting the response's string-typed
`.text` with "matched_columns" raises TypeError for every response text,
so the resolved mapping is always the fuzzy matcher's output and the
generative response is never used, contradicting the claim whenever the
conforming response differs from the fuzzy output. -/
theorem c3_generative_result_never_used (text : String)
    (headers : List String) :
    strGetItemStr text "matched_columns"
      = Except.error "TypeError: string indices must be integers"
    ∧ resolveMapping (Except.ok text) headers = fuzzy_match_columns headers :=
  ⟨rfl, rfl⟩

/-- C4: whenever the generative tier fails (transport error, or any
response whose handling raises), the resolved mapping and unmatched list
are exactly the fuzzy matcher's output on the file's headers, and the
pass still completes with a Processing Summary — on the tabular path and
on the document path alike. -/
theorem c4_assistant_failure_falls_back_to_fuzzy (fp : String)
    (headers : List String) (total : Nat) (resp : Except Unit String)
    (pages : List (List String)) :
    process_tabular fp headers total resp =
      mkSummary fp (fuzzy_match_columns headers).1
        (fuzzy_match_columns headers).2 total
    ∧ (extract_key_value_from_pdf pages ≠ [] →
        process_document pages fp resp =
          DocReturn.three
            (mkSummary fp
              (fuzzy_match_columns
                (dfColumnsOfRecords (extract_key_value_from_pdf pages))).1
              (fuzzy_match_columns
                (dfColumnsOfRecords (extract_key_value_from_pdf pages))).2
              (extract_key_value_from_pdf pages).length)
            (extract_key_value_from_pdf pages)
            (fuzzy_match_columns
              (dfColumnsOfRecords (extract_key_value_from_pdf pages))).1) := by
  constructor
  · cases resp <;> rfl
  · intro hne
    simp only [process_document]
    rw [if_neg hne]
    cases resp <;> rfl

/-- C4 witness: a concrete failing generative call on both paths. -/
theorem c4_witness :
    process_tabular "a.csv" ["p_name"] 3 (Except.error ()) =
      mkSummary "a.csv" (fuzzy_match_columns ["p_name"]).1
        (fuzzy_match_columns ["p_name"]).2 3
    ∧ process_document [["Name: A"]] "a.pdf" (Except.error ()) =
        DocReturn.three
          (mkSummary "a.pdf"
            (fuzzy_match_columns
              (dfColumnsOfRecords (extract_key_value_from_pdf [["Name: A"]]))).1
            (fuzzy_match_columns
              (dfColumnsOfRecords (extract_key_value_from_pdf [["Name: A"]]))).2
            (extract_key_value_from_pdf [["Name: A"]]).length)
          (extract_key_value_from_pdf [["Name: A"]])
          (fuzzy_match_columns
            (dfColumnsOfRecords (extract_key_value_from_pdf [["Name: A"]]))).1 :=
  ⟨(c4_assistant_failure_falls_back_to_fuzzy "a.csv" ["p_name"] 3
      (Except.error ()) [["Name: A"]]).1,
   (c4_assistant_failure_falls_back_to_fuzzy "a.pdf" ["p_name"] 3
      (Except.error ()) [["Name: A"]]).2 (by decide)⟩

/-- C5 (counterexample): with a prior summary present, a correction
mapping the header "p_name" to the canonical field "Player Name" stores
the header "p_name" — not the canonical field "Player Name" — as the
matched set, refuting the claim that the stored matched set is the user
mapping's canonical fields. -/
theorem c5_counterexample :
    (mergeLog ⟨[], [], 0, "partial"⟩ ["p_name"]
        (buildNewMapped [("p_name", "Player Name")] ["p_name"]) 1).matched_columns
      = ["p_name"]
    ∧ ("Player Name" : String) ∉
        (mergeLog ⟨[], [], 0, "partial"⟩ ["p_name"]
          (buildNewMapped [("p_name", "Player Name")] ["p_name"]) 1).matched_columns := by
  decide

/-- C5 (amended): on a correction with a prior summary, the stored
matched set is the list of the user mapping's header keys that occur in
the file's header list; the stored unmatched set is the deduplicated
union of the prior unmatched set with every original header not among
those matched keys; and the status is "accepted" exactly when that
filtered mapping is non-empty, else "partial". -/
theorem c5_merge_stores_header_keys (prior : FileLog)
    (header : List String) (userMapping : List (String × String))
    (total : Nat) :
    (mergeLog prior header (buildNewMapped userMapping header)
        total).matched_columns
      = dictKeys (buildNewMapped userMapping header)
    ∧ (∀ c, c ∈ (mergeLog prior header (buildNewMapped userMapping header)
          total).unmatched_columns ↔
        c ∈ prior.unmatched_columns ∨
          (c ∈ header ∧ c ∉ dictKeys (buildNewMapped userMapping header)))
    ∧ (mergeLog prior header (buildNewMapped userMapping header)
        total).unmatched_columns.Nodup
    ∧ ((mergeLog prior header (buildNewMapped userMapping header)
          total).status = "accepted"
        ↔ buildNewMapped userMapping header ≠ []) := by
  refine ⟨rfl, ?_, ?_, ?_⟩
  · intro c
    show c ∈ (header.foldl
        (fun acc col =>
          if col ∈ dictKeys (buildNewMapped userMapping header) then acc
          else acc ++ [col]) prior.unmatched_columns).dedup ↔ _
    rw [List.mem_dedup]
    exact mem_foldl_appendIfUnmatched header prior.unmatched_columns
      (dictKeys (buildNewMapped userMapping header)) c
  · exact List.nodup_dedup _
  · cases hnm : buildNewMapped userMapping header with
    | nil => simp [mergeLog, hnm, dictKeys]
    | cons a t => simp [mergeLog, hnm, dictKeys]

/-- C5 amended witness: a concrete correction merge. -/
theorem c5_merge_witness :
    (mergeLog ⟨[], ["X"], 0, "partial"⟩ ["p_name"]
        (buildNewMapped [("p_name", "Player Name")] ["p_name"]) 2).matched_columns
      = dictKeys (buildNewMapped [("p_name", "Player Name")] ["p_name"]) :=
  (c5_merge_stores_header_keys ⟨[], ["X"], 0, "partial"⟩ ["p_name"]
    [("p_name", "Player Name")] 2).1

/-- C6: the correction merge never removes a header from the prior
unmatched set — the updated unmatched set contains every previously
unmatched header, whatever the new user mapping says. -/
theorem c6_prior_unmatched_never_removed (prior : FileLog)
    (header : List String) (new_mapped : List (String × String))
    (total : Nat) (c : String) (hc : c ∈ prior.unmatched_columns) :
    c ∈ (mergeLog prior header new_mapped total).unmatched_columns := by
  show c ∈ (header.foldl
      (fun acc col =>
        if col ∈ dictKeys new_mapped then acc else acc ++ [col])
      prior.unmatched_columns).dedup
  rw [List.mem_dedup]
  exact (mem_foldl_appendIfUnmatched header prior.unmatched_columns
    (dictKeys new_mapped) c).mpr (Or.inl hc)

/-- C6 witness: prior unmatched {X, Y} with X newly matched still keeps
Y unmatched. -/
theorem c6_witness :
    "Y" ∈ (mergeLog ⟨["hs"], ["X", "Y"], 5, "accepted"⟩ ["X", "p_name"]
        [("X", "Player Name")] 5).unmatched_columns :=
  c6_prior_unmatched_never_removed ⟨["hs"], ["X", "Y"], 5, "accepted"⟩
    ["X", "p_name"] [("X", "Player Name")] 5 "Y" (by decide)

/-- C7: every canonical record produced by normalization carries exactly
the registry's canonical fields in canonical order; every canonical
field outside the mapping's image carries the placeholder "-" in every
record; and a mapped column's empty or absent cell becomes the empty
string, never the placeholder.  The hypotheses are the data model's
invariants: headers unique within a file, at most one canonical field
per header and at most one header per canonical field, and the mapping's
values drawn from the canonical fields. -/
theorem c7_normalizer_contract (df : DFrame) (nRows : Nat)
    (m : List (String × String)) (hdf : (dictKeys df).Nodup)
    (hmk : (dictKeys m).Nodup) (hmv : (m.map (fun kv => kv.2)).Nodup)
    (hmc : ∀ kv ∈ m, kv.2 ∈ schemaKeys) :
    (∀ r ∈ normalize df nRows m, r.map (fun kv => kv.1) = schemaKeys)
    ∧ (∀ f ∈ schemaKeys, f ∉ m.map (fun kv => kv.2) →
        ∀ r ∈ normalize df nRows m, (f, "-") ∈ r)
    ∧ (∀ h f cells i r, (h, f) ∈ m → (h, cells) ∈ df → i < nRows →
        (cells.get? i = some Option.none ∨ cells.get? i = Option.none) →
        (normalize df nRows m).get? i = some r →
        (f, "") ∈ r ∧ (f, "-") ∉ r) := by
  have hnorm : normalize df nRows m =
      recordsOf (reorderCols (fillMissing nRows
        (renameCols m (selectCols df m)))) nRows := rfl
  have hfilledMem : ∀ k ∈ schemaKeys,
      k ∈ dictKeys (fillMissing nRows (renameCols m (selectCols df m))) := by
    intro k hk
    apply find?_isSome_iff_mem_keys.mp
    rw [find?_filled]
    cases hfr : (renameCols m (selectCols df m)).find?
        (fun col => col.1 == k) with
    | some c => simp
    | none => simp [hk]
  have hreordNames :
      (reorderCols (fillMissing nRows
        (renameCols m (selectCols df m)))).map (fun kv => kv.1) = schemaKeys :=
    filterMap_find?_names schemaKeys _ hfilledMem
  have concl1 : ∀ r ∈ normalize df nRows m,
      r.map (fun kv => kv.1) = schemaKeys := by
    intro r hr
    rw [hnorm] at hr
    obtain ⟨i, hi, hre⟩ := mem_recordsOf.mp hr
    rw [hre, List.map_map]
    exact hreordNames
  refine ⟨concl1, ?_, ?_⟩
  · intro f hf hfm r hr
    rw [hnorm] at hr
    obtain ⟨i, hi, hre⟩ := mem_recordsOf.mp hr
    rw [hre]
    have hnone : (renameCols m (selectCols df m)).find?
        (fun col => col.1 == f) = none :=
      find?_eq_none_of_not_mem_keys (ren_no_foreign_name hmk hfm)
    have hfind : (fillMissing nRows (renameCols m (selectCols df m))).find?
        (fun col => col.1 == f) =
          some (f, List.replicate nRows (some "-")) := by
      rw [find?_filled, hnone]
      simp [hf]
    have hmemr : (f, List.replicate nRows (some "-")) ∈
        reorderCols (fillMissing nRows (renameCols m (selectCols df m))) :=
      mem_filterMap_find? hf hfind
    exact List.mem_map.mpr ⟨(f, List.replicate nRows (some "-")), hmemr,
      by rw [cellVal_replicate hi]⟩
  · intro h f cells i r hm hd hi hcell hr
    rw [hnorm] at hr
    have hrval : r = (reorderCols (fillMissing nRows
        (renameCols m (selectCols df m)))).map
          (fun col => (col.1, cellVal col.2 i)) := by
      have hg := @recordsOf_get? (reorderCols (fillMissing nRows
        (renameCols m (selectCols df m)))) nRows i hi
      rw [hg] at hr
      exact (Option.some.inj hr).symm
    have hren : (f, cells) ∈ renameCols m (selectCols df m) :=
      mem_ren hdf hmk hm hd
    have hfindren : (renameCols m (selectCols df m)).find?
        (fun col => col.1 == f) = some (f, cells) :=
      find?_eq_some_of_nodupKeys (ren_names_nodup hmk hmv) hren
    have hfindfill : (fillMissing nRows (renameCols m (selectCols df m))).find?
        (fun col => col.1 == f) = some (f, cells) := by
      rw [find?_filled, hfindren]
      rfl
    have hfsch : f ∈ schemaKeys := hmc (h, f) hm
    have hmemr : (f, cells) ∈ reorderCols (fillMissing nRows
        (renameCols m (selectCols df m))) :=
      mem_filterMap_find? hfsch hfindfill
    have hval : cellVal cells i = "" := by
      rcases hcell with hc | hc <;>
        (rw [List.get?_eq_getElem?] at hc; simp [cellVal, hc])
    have hfe : (f, "") ∈ r := by
      rw [hrval]
      exact List.mem_map.mpr ⟨(f, cells), hmemr, by rw [hval]⟩
    refine ⟨hfe, ?_⟩
    intro hdash
    have hrmem : r ∈ normalize df nRows m := by
      rw [hnorm]
      exact List.get?_mem hr
    have hkeys : (dictKeys r).Nodup := by
      rw [show dictKeys r = r.map (fun kv => kv.1) from rfl, concl1 r hrmem]
      exact schemaKeys_nodup
    have : ("" : String) = "-" := eq_of_mem_of_nodup_keys hkeys hfe hdash
    exact absurd this (by decide)

/-- C7 witness: a concrete two-row file with one mapped column (whose
second cell is missing) and ten unmapped canonical fields. -/
theorem c7_witness :
    (∀ r ∈ normalize [("p_name", [some "A", Option.none])] 2
        [("p_name", "Player Name")],
      r.map (fun kv => kv.1) = schemaKeys)
    ∧ (∀ r ∈ normalize [("p_name", [some "A", Option.none])] 2
        [("p_name", "Player Name")], ("Matches", "-") ∈ r)
    ∧ (∀ r, (normalize [("p_name", [some "A", Option.none])] 2
        [("p_name", "Player Name")]).get? 1 = some r →
        ("Player Name", "") ∈ r ∧ ("Player Name", "-") ∉ r) := by
  have h := c7_normalizer_contract [("p_name", [some "A", Option.none])] 2
    [("p_name", "Player Name")] (by decide) (by decide) (by decide)
    (by decide)
  exact ⟨h.1, fun r hr => h.2.1 "Matches" (by decide) (by decide) r hr,
    fun r hr => h.2.2 "p_name" "Player Name" [some "A", Option.none] 1 r
      (by decide) (by decide) (by decide) (Or.inl (by decide)) hr⟩

/-- C8 (code evaluation): a document with no separator-bearing line
extracts zero records and the code builds exactly the claimed summary
(0 records, status "Rejected") — but the empty branch returns a
two-element tuple, so the caller's three-way unpacking raises ValueError
and analyze_file surfaces a RuntimeError instead of the summary. -/
theorem c8_empty_document_summary_but_unpack_raises :
    extract_key_value_from_pdf [["hello world"]] = []
    ∧ process_document [["hello world"]] "f.pdf" (Except.error ()) =
        DocReturn.two ⟨"f.pdf", 0, 0, 0, [], [], "Rejected"⟩ []
    ∧ analyze_file_document [["hello world"]] "f.pdf" (Except.error ()) =
        Except.error "RuntimeError: File analysis failed: Failed to process PDF document: ValueError: not enough values to unpack (expected 3, got 2)" :=
  ⟨rfl, rfl, rfl⟩

/-- C9: the fuzzy matcher is a pure function of the header list, the
alias table and the cutoff — two runs on the same inputs produce the
same mapping and the same unmatched list. -/
theorem c9_fuzzy_matcher_deterministic (table : List (String × String))
    (cutoff : Nat × Nat) (hs1 hs2 : List String) (h : hs1 = hs2) :
    fuzzyMatchWith table cutoff hs1 = fuzzyMatchWith table cutoff hs2
    ∧ fuzzy_match_columns hs1 = fuzzy_match_columns hs2 := by
  subst h
  exact ⟨rfl, rfl⟩

/-- C9 witness: two runs on a concrete header list coincide. -/
theorem c9_witness :
    fuzzyMatchWith flat_map (7, 10) ["p_name", "runs"] =
      fuzzyMatchWith flat_map (7, 10) ["p_name", "runs"]
    ∧ fuzzy_match_columns ["p_name", "runs"]
        = fuzzy_match_columns ["p_name", "runs"] :=
  c9_fuzzy_matcher_deterministic flat_map (7, 10) ["p_name", "runs"]
    ["p_name", "runs"] rfl

/-- C10: on the correction path every numeric cell whose value cannot be
parsed as a number — in particular the placeholder "-", the empty string
and a missing value — is persisted as 0 (0.0 for the Average), not
rejected and not stored as null. -/
theorem c10_unparseable_numeric_cells_become_zero (fid : Nat)
    (row : List (String × PyVal)) :
    ((∀ s, rowGet row "Matches" = PyVal.str s → pyIntParse s = Option.none) →
        (buildEntities fid row).1.matchCount = 0)
    ∧ ((∀ s, rowGet row "Innings" = PyVal.str s → pyIntParse s = Option.none) →
        (buildEntities fid row).1.innings = 0)
    ∧ ((∀ s, rowGet row "Total Runs" = PyVal.str s → pyIntParse s = Option.none) →
        (buildEntities fid row).2.1.total_runs = 0)
    ∧ ((∀ s, rowGet row "Centuries" = PyVal.str s → pyIntParse s = Option.none) →
        (buildEntities fid row).2.1.century = 0)
    ∧ ((∀ s, rowGet row "Half Centuries" = PyVal.str s → pyIntParse s = Option.none) →
        (buildEntities fid row).2.1.half_century = 0)
    ∧ ((∀ s, rowGet row "Wickets" = PyVal.str s → pyIntParse s = Option.none) →
        (buildEntities fid row).2.2.wickets = 0)
    ∧ ((∀ s, rowGet row "Fifers" = PyVal.str s → pyIntParse s = Option.none) →
        (buildEntities fid row).2.2.five_wickets = 0)
    ∧ ((∀ s, rowGet row "Average" = PyVal.str s → pyFloatParse s = Option.none) →
        (buildEntities fid row).2.1.average = PyFloat.finite 0)
    ∧ pyIntParse "-" = Option.none ∧ pyIntParse "" = Option.none
    ∧ pyFloatParse "-" = Option.none ∧ pyFloatParse "" = Option.none :=
  ⟨fun h => safe_int_eq_zero h, fun h => safe_int_eq_zero h,
   fun h => safe_int_eq_zero h, fun h => safe_int_eq_zero h,
   fun h => safe_int_eq_zero h, fun h => safe_int_eq_zero h,
   fun h => safe_int_eq_zero h, fun h => safe_float_eq_zero h,
   by decide, by decide, by decide, by decide⟩

/-- C10 witness: a concrete record carrying "-", "" and a missing cell
in its numeric fields is stored with zeros. -/
theorem c10_witness :
    (buildEntities 1 [("Matches", PyVal.str "-"), ("Innings", PyVal.str ""),
        ("Average", PyVal.str "-")]).1.matchCount = 0
    ∧ (buildEntities 1 [("Matches", PyVal.str "-"), ("Innings", PyVal.str ""),
        ("Average", PyVal.str "-")]).1.innings = 0
    ∧ (buildEntities 1 [("Matches", PyVal.str "-"), ("Innings", PyVal.str ""),
        ("Average", PyVal.str "-")]).2.2.wickets = 0
    ∧ (buildEntities 1 [("Matches", PyVal.str "-"), ("Innings", PyVal.str ""),
        ("Average", PyVal.str "-")]).2.1.average = PyFloat.finite 0 := by
  have h := c10_unparseable_numeric_cells_become_zero 1
    [("Matches", PyVal.str "-"), ("Innings", PyVal.str ""),
     ("Average", PyVal.str "-")]
  refine ⟨h.1 ?_, h.2.1 ?_, h.2.2.2.2.2.1 ?_, h.2.2.2.2.2.2.2.1 ?_⟩ <;>
    (intro s hs;
     first
       | (have : PyVal.str "-" = PyVal.str s := hs; cases this; decide)
       | (have : PyVal.str "" = PyVal.str s := hs; cases this; decide)
       | (cases hs))

end FileBackend
